import Mathlib

/-!
Shallow embedding of the connection-pool manager (`class DatabaseManager`,
src/unnamed/part_000) of the flex-technology-group-interview repository.

Modelling conventions:
* JavaScript values bound to SQL parameters are modelled by `Db.Value`;
  the JS `undefined` obtained by reading an absent object field is `vUndefined`.
* An entity / plain JS object is an association list `List (String × Value)`
  whose order is the field iteration order.
* Driver-level outcomes (pool connect, pool close, command execution, bulk
  copy, transaction begin / per-operation / commit / rollback) are supplied
  by an environment `Db.Env`; `none` means the awaited promise resolved,
  `some e` that it rejected with error `e`.
* Every `new Error(...)` site of the source has its own `DbError`
  constructor; driver errors are `DbError.external code`.  The constructor
  `DbError.exhaustedRetries` models the spec's `ExhaustedRetriesError` error
  kind; the code embedding never constructs it.
* Each manager operation returns its result, the updated manager state `DM`
  (the `pools` map plus a fresh-id counter giving pools their identity), and
  the list of observable `Event`s it performed, in order.
-/

namespace Db

/-- JS values used as SQL parameter / cell values. `vUndefined` models the
JS `undefined` produced by reading an absent object field. -/
inductive Value
  | vNull
  | vUndefined
  | vInt (n : Int)
  | vStr (s : String)
  | vBool (b : Bool)
  deriving DecidableEq

/-- The mssql driver type tags used by the repository (`mssql.Int`,
`mssql.VarChar`, ...). -/
inductive SqlType
  | int
  | varChar
  | bit
  | dateTime
  deriving DecidableEq

/-- `mssql.config`: the fields the repository supplies. -/
structure Config where
  user : String
  password : String
  server : String
  database : String
  poolMin : Nat
  poolMax : Nat
  acquireTimeoutMillis : Nat
  encrypt : Bool
  trustServerCertificate : Bool
  deriving DecidableEq

/-- Each `new Error(...)` site of `DatabaseManager` gets a constructor;
`external` stands for a driver/network error delivered by the environment.
`exhaustedRetries` is the spec's `ExhaustedRetriesError` wrapper kind (the
code never constructs it).  `nullAssertion` models the non-null assertion
`this.pools.get(name)!` finding no entry (unreachable in reachable states). -/
inductive DbError
  | missingConfigDetails
  | configNotProvided (name : String)
  | poolNotFound (name : String)
  | nullAssertion
  | external (code : Nat)
  | exhaustedRetries (cause : DbError)
  deriving DecidableEq

/-- Does error `e` carry (equal or transitively wrap) error `t`?  Used to
state whether a propagated error mentions a particular underlying failure. -/
def errMentions : DbError → DbError → Bool
  | DbError.exhaustedRetries c, t =>
      (DbError.exhaustedRetries c == t) || errMentions c t
  | e, t => e == t

/-- Runtime pool object: identity (`id`, assigned from the manager's
fresh-id counter at creation), its config, and the mssql connection flags. -/
structure Pool where
  id : Nat
  config : Config
  connected : Bool
  connecting : Bool
  deriving DecidableEq

/-- State of a `DatabaseManager`: the `pools` map (associaion list in map
iteration order) and the counter supplying fresh pool identities. -/
structure DM where
  pools : List (String × Pool)
  nextId : Nat
  deriving DecidableEq

/-- Observable actions performed against pools / the driver. -/
inductive Event
  | poolCreated (id : Nat)
  | connectCalled (id : Nat)
  | closeHookRun (name : String) (id : Nat)
  | underlyingCloseCalled (id : Nat)
  | commandRun (id : Nat)
  | bulkRun (id : Nat)
  | txBeginAttempt
  | txOpExecuted (i : Nat)
  | txCommitAttempt
  | txRollbackAttempt
  deriving DecidableEq

/-- `query` or `execute` (`commandType` in the source). -/
inductive CmdKind
  | query
  | execute
  deriving DecidableEq

/-- A command parameter `{name, value, type?}`; `typeTag = none` when the
object has no `type` field. -/
structure Param where
  name : String
  value : Value
  typeTag : Option SqlType
  deriving DecidableEq

/-- One parameter as bound on an mssql `Request` by `assignParams`
(`request.input(...)` when `isInput`, else `request.output(...)`). -/
structure BoundParam where
  isInput : Bool
  name : String
  typeTag : Option SqlType
  value : Value
  deriving DecidableEq

/-- An mssql `Request` scope: the parameters bound on it, in bind order. -/
structure SqlRequest where
  bound : List BoundParam
  deriving DecidableEq

/-- A driver result: recordset rows and affected-row counts. -/
structure SqlResult where
  recordset : List (List (String × Value))
  rowsAffected : List Nat
  deriving DecidableEq

/-- One operation of `executeTransaction`'s list: `{commandType, command,
inputs?, outputs?}` (the source defaults absent lists with `|| []`). -/
structure TxOp where
  commandType : CmdKind
  command : String
  inputs : Option (List Param)
  outputs : Option (List Param)
  deriving DecidableEq

/-- A bulk-insert column declaration `{name, type, options?}` (the source
defaults absent options with `|| {}`). -/
structure ColumnDef where
  name : String
  colType : SqlType
  options : Option (List (String × Value))
  deriving DecidableEq

/-- The `mssql.Table` buffer built by `bulkInsert`. -/
structure BulkTable where
  tableName : String
  columns : List (String × SqlType × List (String × Value))
  rows : List (List Value)
  deriving DecidableEq

/-- Environment: outcome of every awaited driver operation.  `none` means
the promise resolved, `some e` that it rejected with `e`.  Connect and
close outcomes are indexed by the pool's identity; the outcome of the i-th
operation inside a transaction is `txOpResult i`. -/
structure Env where
  connectResult : Nat → Option DbError
  closeResult : Nat → Option DbError
  execResult : Nat → CmdKind → String → SqlRequest → Except DbError SqlResult
  bulkResult : Nat → BulkTable → Option DbError
  beginResult : Option DbError
  txOpResult : Nat → Option DbError
  commitResult : Option DbError
  rollbackResult : Option DbError

instance {ε α : Type} [DecidableEq ε] [DecidableEq α] :
    DecidableEq (Except ε α) := fun a b =>
  match a, b with
  | Except.ok x, Except.ok y =>
      if h : x = y then isTrue (by rw [h])
      else isFalse (by intro hc; cases hc; exact h rfl)
  | Except.ok _, Except.error _ => isFalse (by intro hc; cases hc)
  | Except.error _, Except.ok _ => isFalse (by intro hc; cases hc)
  | Except.error e, Except.error f =>
      if h : e = f then isTrue (by rw [h])
      else isFalse (by intro hc; cases hc; exact h rfl)

/-- Association-list lookup (JS `Map.get` / object field read). -/
def assocFind {α : Type} : List (String × α) → String → Option α
  | [], _ => none
  | e :: rest, k => if e.1 = k then some e.2 else assocFind rest k

/-- Association-list removal (JS `Map.delete`). -/
def assocRemove {α : Type} : List (String × α) → String → List (String × α)
  | [], _ => []
  | e :: rest, k => if e.1 = k then assocRemove rest k else e :: assocRemove rest k

/-- Association-list insert-or-replace (JS `Map.set`: replacing an existing
key keeps its position, a new key is appended). -/
def assocPut {α : Type} : List (String × α) → String → α → List (String × α)
  | [], k, v => [(k, v)]
  | e :: rest, k, v => if e.1 = k then (k, v) :: rest else e :: assocPut rest k v

/-- Reading field `key` of a JS object: `undefined` when absent. -/
def objectGet (entity : List (String × Value)) (key : String) : Value :=
  match assocFind entity key with
  | some v => v
  | none => Value.vUndefined

/-- `Object.keys(entity)`: field names in iteration order. -/
def objectKeys (entity : List (String × Value)) : List String :=
  entity.map Prod.fst

/-- `DatabaseManager.setPool(name, config)`.  Throws
`'Missing configuration details'` when the name is falsy (empty string) or
the config is absent; in that case the catch clause deletes an existing
entry for `name` only when `name` is truthy.  On success a fresh pool
(close hook rebound, not yet connected) replaces any entry under `name`. -/
def setPool (dm : DM) (name : String) (config : Option Config) :
    Except DbError Unit × DM × List Event :=
  match config with
  | none =>
      let dm2 :=
        if name ≠ "" ∧ (assocFind dm.pools name).isSome then
          { dm with pools := assocRemove dm.pools name }
        else dm
      (Except.error DbError.missingConfigDetails, dm2, [])
  | some c =>
      if name = "" then
        (Except.error DbError.missingConfigDetails, dm, [])
      else
        let pool : Pool :=
          { id := dm.nextId, config := c, connected := false, connecting := false }
        (Except.ok (),
         { pools := assocPut dm.pools name pool, nextId := dm.nextId + 1 },
         [Event.poolCreated dm.nextId])

/-- `pool.connect()` awaited by `getPool`: on success the pool object held
by the registry becomes connected; on rejection the error propagates. -/
def poolConnect (env : Env) (dm : DM) (name : String) (pool : Pool) :
    Except DbError Pool × DM × List Event :=
  match env.connectResult pool.id with
  | none =>
      let p2 : Pool := { pool with connected := true, connecting := false }
      (Except.ok p2, { dm with pools := assocPut dm.pools name p2 },
       [Event.connectCalled pool.id])
  | some e => (Except.error e, dm, [Event.connectCalled pool.id])

/-- `DatabaseManager.getPool(name, config?)`.  Absent entry and no config:
throws `'Configuration for pool <name> not provided'`.  Absent entry with a
config: `setPool` first.  Then the non-null lookup, and a connect when the
pool is neither connected nor connecting. -/
def getPool (env : Env) (dm : DM) (name : String) (config : Option Config) :
    Except DbError Pool × DM × List Event :=
  match
    (if (assocFind dm.pools name).isSome then
       (Except.ok (), dm, ([] : List Event))
     else
       match config with
       | none => (Except.error (DbError.configNotProvided name), dm, [])
       | some c => setPool dm name (some c)) with
  | (Except.error e, dm2, evs) => (Except.error e, dm2, evs)
  | (Except.ok _, dm2, evs) =>
      match assocFind dm2.pools name with
      | none => (Except.error DbError.nullAssertion, dm2, evs)
      | some pool =>
          if !pool.connected && !pool.connecting then
            let r := poolConnect env dm2 name pool
            (r.1, r.2.1, evs ++ r.2.2)
          else (Except.ok pool, dm2, evs)

/-- The rebound `pool.close` installed by `setPool`: it deletes the
registry entry for the captured `name` first, then runs the original
driver close, whose rejection (if any) propagates. -/
def poolCloseHook (env : Env) (dm : DM) (name : String) (pool : Pool) :
    Except DbError Unit × DM × List Event :=
  let dm2 : DM := { dm with pools := assocRemove dm.pools name }
  match env.closeResult pool.id with
  | none =>
      (Except.ok (), dm2,
       [Event.closeHookRun name pool.id, Event.underlyingCloseCalled pool.id])
  | some e =>
      (Except.error e, dm2,
       [Event.closeHookRun name pool.id, Event.underlyingCloseCalled pool.id])

/-- `DatabaseManager.closePool(name)`: `'Pool <name> does not exist'` when
the registry has no entry, otherwise awaits the pool's (rebound) close. -/
def closePool (env : Env) (dm : DM) (name : String) :
    Except DbError Unit × DM × List Event :=
  match assocFind dm.pools name with
  | none => (Except.error (DbError.poolNotFound name), dm, [])
  | some pool => poolCloseHook env dm name pool

/-- `DatabaseManager.closeAllPools()`: starts every pool's rebound close
(each synchronously deregisters its entry), then `Promise.all` awaits them;
a rejection makes `Promise.all` reject with that single error — modelled as
the first failing entry's error in map order, with no aggregation. -/
def closeAllPools (env : Env) (dm : DM) :
    Except DbError Unit × DM × List Event :=
  let evs := (dm.pools.map (fun e =>
    [Event.closeHookRun e.1 e.2.id, Event.underlyingCloseCalled e.2.id])).flatten
  let errs := dm.pools.filterMap (fun e => env.closeResult e.2.id)
  (match errs with
   | [] => Except.ok ()
   | e :: _ => Except.error e,
   { dm with pools := [] }, evs)

/-- One forEach arm of `assignParams`: bind each param as input/output,
with the 3-argument overload when it has a truthy `type` field. -/
def bindParams (isInput : Bool) (params : List Param) : List BoundParam :=
  params.map (fun p =>
    { isInput := isInput, name := p.name, typeTag := p.typeTag, value := p.value })

/-- `DatabaseManager.assignParams(request, inputs, outputs)`: inputs bound
first, then outputs, each list in order. -/
def assignParams (req : SqlRequest) (inputs outputs : List Param) : SqlRequest :=
  { bound := req.bound ++ bindParams true inputs ++ bindParams false outputs }

/-- `DatabaseManager.runCommand(poolName, commandType, command, inputs,
outputs)`: resolve the pool (no config passed), open a request, bind the
params, run the command; errors propagate after logging. -/
def runCommand (env : Env) (dm : DM) (poolName : String) (commandType : CmdKind)
    (command : String) (inputs outputs : List Param) :
    Except DbError SqlResult × DM × List Event :=
  match getPool env dm poolName none with
  | (Except.error e, dm2, evs) => (Except.error e, dm2, evs)
  | (Except.ok pool, dm2, evs) =>
      let req := assignParams { bound := [] } inputs outputs
      match env.execResult pool.id commandType command req with
      | Except.ok res => (Except.ok res, dm2, evs ++ [Event.commandRun pool.id])
      | Except.error e => (Except.error e, dm2, evs ++ [Event.commandRun pool.id])

/-- The input-Param list `Object.keys(entity).map(key => ({name: key,
value: entity[key]}))` built by `executeWithEntity`. -/
def entityParams (entity : List (String × Value)) : List Param :=
  (objectKeys entity).map (fun key =>
    { name := key, value := objectGet entity key, typeTag := none })

/-- `DatabaseManager.executeWithEntity(poolName, commandType, command,
entity, outputs)`: delegates to `runCommand` with the derived inputs. -/
def executeWithEntity (env : Env) (dm : DM) (poolName : String)
    (commandType : CmdKind) (command : String)
    (entity : List (String × Value)) (outputs : List Param) :
    Except DbError SqlResult × DM × List Event :=
  runCommand env dm poolName commandType command (entityParams entity) outputs

/-- The `mssql.Table` built by `bulkInsert`: the declared columns (options
defaulted with `|| {}`), and one row per entity projecting each declared
column's value out of the entity in column-declaration order. -/
def buildBulkTable (tableName : String) (columns : List ColumnDef)
    (entities : List (List (String × Value))) : BulkTable :=
  { tableName := tableName,
    columns := columns.map (fun c => (c.name, c.colType, c.options.getD [])),
    rows := entities.map (fun entity =>
      columns.map (fun c => objectGet entity c.name)) }

/-- `DatabaseManager.bulkInsert(poolName, tableName, columns, entities)`:
resolve the pool, build the table buffer, perform one bulk request. -/
def bulkInsert (env : Env) (dm : DM) (poolName : String) (tableName : String)
    (columns : List ColumnDef) (entities : List (List (String × Value))) :
    Except DbError Unit × DM × List Event :=
  match getPool env dm poolName none with
  | (Except.error e, dm2, evs) => (Except.error e, dm2, evs)
  | (Except.ok pool, dm2, evs) =>
      let table := buildBulkTable tableName columns entities
      match env.bulkResult pool.id table with
      | none => (Except.ok (), dm2, evs ++ [Event.bulkRun pool.id])
      | some e => (Except.error e, dm2, evs ++ [Event.bulkRun pool.id])

/-- Trace of one `retryOperation` run: the final outcome, the backoff
delays awaited between attempts (in order), and how many times the
operation was invoked. -/
structure RetryTrace (T : Type) where
  result : Except DbError T
  delays : List Nat
  calls : Nat
  deriving DecidableEq

/-- `DatabaseManager.retryOperation(operation, retries, delay)`.  The
operation is a stateful thunk, modelled as indexed by the attempt number
(`attempt` starts at 0).  On failure with `retries > 0`: wait `delay`, then
recurse with `retries - 1` and `delay * 2`; with no retries left the raw
last error is rethrown. -/
def retryOperationAux {T : Type} (op : Nat → Except DbError T) :
    Nat → Nat → Nat → RetryTrace T
  | attempt, retries, delay =>
    match op attempt with
    | Except.ok v => { result := Except.ok v, delays := [], calls := 1 }
    | Except.error e =>
      match retries with
      | 0 => { result := Except.error e, delays := [], calls := 1 }
      | r + 1 =>
        let t := retryOperationAux op (attempt + 1) r (delay * 2)
        { result := t.result, delays := delay :: t.delays, calls := t.calls + 1 }

/-- Entry point of `retryOperation`: first attempt has index 0. -/
def retryOperation {T : Type} (op : Nat → Except DbError T)
    (retries delay : Nat) : RetryTrace T :=
  retryOperationAux op 0 retries delay

/-- The for-loop of `executeTransaction`: run each operation against the
transaction in order (the i-th driver outcome is `env.txOpResult i`),
stopping at the first failure. -/
def runTxOps (env : Env) : List TxOp → Nat → Option DbError × List Event
  | [], _ => (none, [])
  | _op :: rest, i =>
    match env.txOpResult i with
    | some e => (some e, [Event.txOpExecuted i])
    | none =>
      let r := runTxOps env rest (i + 1)
      (r.1, Event.txOpExecuted i :: r.2)

/-- `DatabaseManager.executeTransaction(poolName, operations)`: resolve the
pool, begin (a begin rejection propagates immediately), then run the
operations in order and commit — both inside the try block, so a failing
operation OR a failing commit reaches the catch, which awaits a rollback
(its own rejection is swallowed by `.catch`) and rethrows the original
error. -/
def executeTransaction (env : Env) (dm : DM) (poolName : String)
    (ops : List TxOp) : Except DbError Unit × DM × List Event :=
  match getPool env dm poolName none with
  | (Except.error e, dm2, evs) => (Except.error e, dm2, evs)
  | (Except.ok _pool, dm2, evs) =>
    match env.beginResult with
    | some e => (Except.error e, dm2, evs ++ [Event.txBeginAttempt])
    | none =>
      let r := runTxOps env ops 0
      match r.1 with
      | some e =>
          (Except.error e, dm2,
           evs ++ [Event.txBeginAttempt] ++ r.2 ++ [Event.txRollbackAttempt])
      | none =>
        match env.commitResult with
        | none =>
            (Except.ok (), dm2,
             evs ++ [Event.txBeginAttempt] ++ r.2 ++ [Event.txCommitAttempt])
        | some e =>
            (Except.error e, dm2,
             evs ++ [Event.txBeginAttempt] ++ r.2
               ++ [Event.txCommitAttempt, Event.txRollbackAttempt])

/-- Registry invariant holding in every reachable state: every tracked
pool's identity is below the fresh-id counter, and no entry has the empty
(falsy) name. -/
def WF (dm : DM) : Prop :=
  ∀ e ∈ dm.pools, e.2.id < dm.nextId ∧ e.1 ≠ ""

/-! ### Association-list lemmas -/

theorem assocFind_put {α : Type} (l : List (String × α)) (k : String) (v : α) :
    assocFind (assocPut l k v) k = some v := by
  induction l with
  | nil => simp [assocPut, assocFind]
  | cons e rest ih =>
    by_cases h : e.1 = k
    · simp [assocPut, assocFind, h]
    · simp [assocPut, assocFind, h, ih]

theorem assocFind_remove {α : Type} (l : List (String × α)) (k : String) :
    assocFind (assocRemove l k) k = none := by
  induction l with
  | nil => simp [assocRemove, assocFind]
  | cons e rest ih =>
    by_cases h : e.1 = k
    · simp [assocRemove, h, ih]
    · simp [assocRemove, assocFind, h, ih]

theorem assocFind_mem {α : Type} {l : List (String × α)} {k : String} {v : α}
    (h : assocFind l k = some v) : (k, v) ∈ l := by
  induction l with
  | nil => simp [assocFind] at h
  | cons e rest ih =>
    by_cases he : e.1 = k
    · obtain ⟨a, b⟩ := e
      simp at he
      simp [assocFind, he] at h
      subst he
      subst h
      exact List.mem_cons_self _ _
    · simp [assocFind, he] at h
      exact List.mem_cons_of_mem _ (ih h)

theorem mem_assocRemove {α : Type} {l : List (String × α)} {k : String}
    {e : String × α} (h : e ∈ assocRemove l k) : e ∈ l := by
  induction l with
  | nil => simp [assocRemove] at h
  | cons hd rest ih =>
    by_cases hh : hd.1 = k
    · simp [assocRemove, hh] at h
      exact List.mem_cons_of_mem _ (ih h)
    · simp [assocRemove, hh] at h
      cases h with
      | inl h => exact h ▸ List.mem_cons_self _ _
      | inr h => exact List.mem_cons_of_mem _ (ih h)

theorem mem_assocPut {α : Type} {l : List (String × α)} {k : String} {v : α}
    {e : String × α} (h : e ∈ assocPut l k v) : e = (k, v) ∨ e ∈ l := by
  induction l with
  | nil => simp [assocPut] at h; exact Or.inl h
  | cons hd rest ih =>
    by_cases hh : hd.1 = k
    · simp [assocPut, hh] at h
      cases h with
      | inl h => exact Or.inl h
      | inr h => exact Or.inr (List.mem_cons_of_mem _ h)
    · simp [assocPut, hh] at h
      cases h with
      | inl h => exact Or.inr (h ▸ List.mem_cons_self _ _)
      | inr h =>
        cases ih h with
        | inl h => exact Or.inl h
        | inr h => exact Or.inr (List.mem_cons_of_mem _ h)

/-! ### Shared facts about pool resolution -/

/-- When the registry already holds a connected pool under `name`, `getPool`
returns it unchanged and performs no action. -/
theorem getPool_connected_entry (env : Env) (dm : DM) (name : String)
    (config : Option Config) (pool : Pool)
    (hfind : assocFind dm.pools name = some pool)
    (hconn : pool.connected = true) :
    getPool env dm name config = (Except.ok pool, dm, []) := by
  simp [getPool, hfind, hconn]

/-- When `name` is absent, non-empty, and a config is supplied, `getPool`
creates a fresh pool (identity `dm.nextId`) and connects it before
returning (provided the driver connect resolves). -/
theorem getPool_absent_creates (env : Env) (dm : DM) (name : String)
    (cfg : Config)
    (habs : assocFind dm.pools name = none)
    (hne : name ≠ "")
    (hcr : env.connectResult dm.nextId = none) :
    ∃ dm2 : DM,
      getPool env dm name (some cfg) =
        (Except.ok { id := dm.nextId, config := cfg, connected := true, connecting := false },
         dm2, [Event.poolCreated dm.nextId, Event.connectCalled dm.nextId]) ∧
      assocFind dm2.pools name =
        some { id := dm.nextId, config := cfg, connected := true, connecting := false } ∧
      dm2.nextId = dm.nextId + 1 := by
  refine ⟨⟨assocPut (assocPut dm.pools name
      { id := dm.nextId, config := cfg, connected := false, connecting := false }) name
      { id := dm.nextId, config := cfg, connected := true, connecting := false },
      dm.nextId + 1⟩, ?_, ?_, rfl⟩
  · simp [getPool, habs, setPool, hne, assocFind_put, poolConnect, hcr]
  · exact assocFind_put _ _ _

/-! ### Facts about the transaction operation loop -/

/-- If the operations before index `i` (relative to start index `s`) all
succeed and the `i`-th fails with `e`, the loop stops with `e`. -/
theorem runTxOps_first_fail (env : Env) (ops : List TxOp) :
    ∀ (s i : Nat) (e : DbError), i < ops.length →
      (∀ j, j < i → env.txOpResult (s + j) = none) →
      env.txOpResult (s + i) = some e →
      (runTxOps env ops s).1 = some e := by
  induction ops with
  | nil => intro s i e hi _ _; simp at hi
  | cons op rest ih =>
    intro s i e hi hprev hfail
    cases i with
    | zero =>
      have h0 : env.txOpResult s = some e := by simpa using hfail
      simp [runTxOps, h0]
    | succ k =>
      have h0 : env.txOpResult s = none := by
        have := hprev 0 (Nat.succ_pos k)
        simpa using this
      have hk : (runTxOps env rest (s + 1)).1 = some e := by
        refine ih (s + 1) k e (by simpa using hi) ?_ ?_
        · intro j hj
          have := hprev (j + 1) (Nat.succ_lt_succ hj)
          simpa [Nat.add_assoc, Nat.add_comm 1 j] using this
        · simpa [Nat.add_assoc, Nat.add_comm 1 k] using hfail
      simp [runTxOps, h0, hk]

/-! ### The registry invariant `WF` holds in every reachable state -/

theorem wf_empty : WF ⟨[], 0⟩ := by
  intro e he
  simp at he

theorem wf_setPool (dm : DM) (name : String) (config : Option Config)
    (h : WF dm) : WF (setPool dm name config).2.1 := by
  cases config with
  | none =>
    by_cases hc : name ≠ "" ∧ (assocFind dm.pools name).isSome
    · simp only [setPool, if_pos hc]
      exact fun e he => h e (mem_assocRemove he)
    · simp only [setPool, if_neg hc]
      exact h
  | some c =>
    by_cases hn : name = ""
    · simp only [setPool, if_pos hn]
      exact h
    · simp only [setPool, if_neg hn]
      intro e he
      cases mem_assocPut he with
      | inl hE =>
        subst hE
        exact ⟨Nat.lt_succ_self _, hn⟩
      | inr hE => exact ⟨Nat.lt_succ_of_lt (h e hE).1, (h e hE).2⟩

theorem wf_poolConnect (env : Env) (dm : DM) (name : String) (pool : Pool)
    (h : WF dm) (hmem : (name, pool) ∈ dm.pools) :
    WF (poolConnect env dm name pool).2.1 := by
  cases hc : env.connectResult pool.id with
  | none =>
    simp only [poolConnect, hc]
    intro e he
    cases mem_assocPut he with
    | inl hE =>
      subst hE
      exact ⟨(h _ hmem).1, (h _ hmem).2⟩
    | inr hE => exact h e hE
  | some e =>
    simp only [poolConnect, hc]
    exact h

theorem wf_getPool (env : Env) (dm : DM) (name : String) (config : Option Config)
    (h : WF dm) : WF (getPool env dm name config).2.1 := by
  rcases hfind : assocFind dm.pools name with _ | pool
  · cases config with
    | none =>
      simp [getPool, hfind]
      exact h
    | some c =>
      by_cases hn : name = ""
      · subst hn
        simp [getPool, hfind, setPool]
        exact h
      · have hput := assocFind_put dm.pools name
          (⟨dm.nextId, c, false, false⟩ : Pool)
        have hwf2 : WF ⟨assocPut dm.pools name ⟨dm.nextId, c, false, false⟩,
            dm.nextId + 1⟩ := by
          intro e he
          cases mem_assocPut he with
          | inl hE =>
            subst hE
            exact ⟨Nat.lt_succ_self _, hn⟩
          | inr hE => exact ⟨Nat.lt_succ_of_lt (h e hE).1, (h e hE).2⟩
        simp [getPool, hfind, setPool, hn, hput]
        exact wf_poolConnect env _ name _ hwf2 (assocFind_mem hput)
  · have hmem := assocFind_mem hfind
    by_cases hcf : (!pool.connected && !pool.connecting) = true
    · simp [getPool, hfind, hcf]
      exact wf_poolConnect env dm name pool h hmem
    · simp [getPool, hfind, hcf]
      exact h

theorem wf_closePool (env : Env) (dm : DM) (name : String)
    (h : WF dm) : WF (closePool env dm name).2.1 := by
  rcases hfind : assocFind dm.pools name with _ | pool
  · simp only [closePool, hfind]
    exact h
  · cases hc : env.closeResult pool.id with
    | none =>
      simp only [closePool, hfind, poolCloseHook, hc]
      exact fun e he => h e (mem_assocRemove he)
    | some e =>
      simp only [closePool, hfind, poolCloseHook, hc]
      exact fun e he => h e (mem_assocRemove he)

theorem wf_closeAllPools (env : Env) (dm : DM) :
    WF (closeAllPools env dm).2.1 := by
  intro e he
  simp [closeAllPools] at he

/-- If every operation of the list succeeds, the loop reports no error. -/
theorem runTxOps_all_ok (env : Env) (ops : List TxOp) :
    ∀ s : Nat, (∀ j, j < ops.length → env.txOpResult (s + j) = none) →
      (runTxOps env ops s).1 = none := by
  induction ops with
  | nil => intro s _; simp [runTxOps]
  | cons op rest ih =>
    intro s hok
    have h0 : env.txOpResult s = none := by simpa using hok 0 (Nat.succ_pos _)
    have hrest : (runTxOps env rest (s + 1)).1 = none := by
      refine ih (s + 1) ?_
      intro j hj
      have := hok (j + 1) (Nat.succ_lt_succ hj)
      simpa [Nat.add_assoc, Nat.add_comm 1 j] using this
    simp [runTxOps, h0, hrest]

/-! ### Concrete fixtures for counterexamples and witnesses -/

/-- A concrete pool config (the shape the repository builds from env). -/
def cfg0 : Config :=
  { user := "u", password := "pw", server := "s", database := "d",
    poolMin := 10, poolMax := 100, acquireTimeoutMillis := 15000,
    encrypt := true, trustServerCertificate := false }

/-- Environment in which every driver operation resolves. -/
def envOk : Env :=
  { connectResult := fun _ => none, closeResult := fun _ => none,
    execResult := fun _ _ _ _ => Except.ok { recordset := [], rowsAffected := [] },
    bulkResult := fun _ _ => none, beginResult := none,
    txOpResult := fun _ => none, commitResult := none, rollbackResult := none }

/-- A connected pool with identity 0. -/
def poolC : Pool := { id := 0, config := cfg0, connected := true, connecting := false }

/-- A registry holding the single connected pool `"p"`. -/
def dmOne : DM := ⟨[("p", poolC)], 1⟩

/-- A transaction operation with no explicit inputs/outputs. -/
def opQ : TxOp :=
  { commandType := CmdKind.query, command := "Q", inputs := none, outputs := none }

/-- Environment in which the transaction commit rejects (rollback resolves). -/
def envCommitFail : Env := { envOk with commitResult := some (DbError.external 7) }

/-- Environment in which operation 1 of a transaction rejects and the
rollback rejects too. -/
def envOpFail : Env :=
  { envOk with
    txOpResult := fun i => if i = 1 then some (DbError.external 3) else none,
    rollbackResult := some (DbError.external 9) }

/-- A stateless operation that rejects on every invocation. -/
def opAlwaysFail : Nat → Except DbError Nat :=
  fun _ => Except.error (DbError.external 5)

/-- An operation that rejects on its first two invocations and then
resolves with 42. -/
def opFlaky : Nat → Except DbError Nat :=
  fun i => if i < 2 then Except.error (DbError.external (i + 1)) else Except.ok 42

/-- Is the error an `ExhaustedRetriesError`-style wrapper? -/
def isExhaustedWrap : DbError → Bool
  | DbError.exhaustedRetries _ => true
  | _ => false

/-- Two connected pools and a registry holding both, plus an environment in
which both underlying closes reject, with different errors. -/
def poolA : Pool := { id := 0, config := cfg0, connected := true, connecting := false }

def poolB : Pool := { id := 1, config := cfg0, connected := true, connecting := false }

def dmTwo : DM := ⟨[("a", poolA), ("b", poolB)], 2⟩

def envCloseFails : Env :=
  { envOk with closeResult := fun i =>
      if i = 0 then some (DbError.external 1) else some (DbError.external 2) }

/-! ### Claim C3 -/

/-- Claim C3 counterexample: an operation failing on every invocation, with
`retries = 2`, is invoked exactly 3 times, but the propagated error is the
raw error of the last attempt (`external 5`), which is not an
`ExhaustedRetriesError` wrapper — `retryOperation` rethrows the last error
unwrapped, so the claim's wrapping assertion is false. -/
theorem retryOperation_no_wrapper_cex :
    (retryOperation opAlwaysFail 2 100).calls = 3 ∧
    (retryOperation opAlwaysFail 2 100).result = Except.error (DbError.external 5) ∧
    isExhaustedWrap (DbError.external 5) = false ∧
    (Except.error (DbError.external 5) : Except DbError Nat) ≠
      Except.error (DbError.exhaustedRetries (DbError.external 5)) := by
  decide

/-- Claim C3 (amended): for every operation failing on every invocation,
`retryOperation` with `retries = 2` invokes the operation exactly 3 times
(the initial attempt plus 2 retries), waits `d` then `d * 2` between
attempts, and then fails with the last attempt's error itself (the raw
error — no wrapper is added). -/
theorem retryOperation_exhaustion_raw_last_error {T : Type}
    (op : Nat → Except DbError T) (errseq : Nat → DbError) (d : Nat)
    (h : ∀ i, op i = Except.error (errseq i)) :
    retryOperation op 2 d =
      { result := Except.error (errseq 2), delays := [d, d * 2], calls := 3 } := by
  simp [retryOperation, retryOperationAux, h 0, h 1, h 2]

/-- Witness for the amended Claim C3 at a concrete always-failing
operation. -/
theorem retryOperation_exhaustion_witness :
    retryOperation opAlwaysFail 2 100 =
      { result := Except.error (DbError.external 5), delays := [100, 200],
        calls := 3 } :=
  retryOperation_exhaustion_raw_last_error opAlwaysFail
    (fun _ => DbError.external 5) 100 (fun _ => rfl)

/-! ### Claim C4 -/

/-- Claim C4: for every operation failing on its first two invocations and
succeeding on the third, `retryOperation` with `retries = 3` and
`delayMs = 100` returns the third invocation's result, having waited 100ms
before the second attempt and 200ms before the third. -/
theorem retryOperation_two_failures_then_success {T : Type}
    (op : Nat → Except DbError T) (e0 e1 : DbError) (v : T)
    (h0 : op 0 = Except.error e0) (h1 : op 1 = Except.error e1)
    (h2 : op 2 = Except.ok v) :
    retryOperation op 3 100 =
      { result := Except.ok v, delays := [100, 200], calls := 3 } := by
  simp [retryOperation, retryOperationAux, h0, h1, h2]

/-- Witness for Claim C4 at a concrete fail-twice-then-succeed operation. -/
theorem retryOperation_two_failures_witness :
    retryOperation opFlaky 3 100 =
      { result := Except.ok 42, delays := [100, 200], calls := 3 } :=
  retryOperation_two_failures_then_success opFlaky
    (DbError.external 1) (DbError.external 2) 42 rfl rfl rfl

/-! ### Claim C1 -/

/-- Claim C1: for every environment (including one whose rollback rejects),
registry, pool name and operation list, if the pool resolves, the
transaction begins, and the `i`-th operation is the first to fail (with
error `e`), then `executeTransaction` attempts a rollback and the error
that propagates to the caller is `e` itself — the rollback's own outcome
(`env.rollbackResult`, arbitrary here) never replaces it. -/
theorem executeTransaction_opFailure_original_error (env : Env) (dm : DM)
    (poolName : String) (ops : List TxOp) (pool : Pool) (i : Nat) (e : DbError)
    (hfind : assocFind dm.pools poolName = some pool)
    (hconn : pool.connected = true)
    (hbegin : env.beginResult = none)
    (hi : i < ops.length)
    (hprev : ∀ j, j < i → env.txOpResult j = none)
    (hfail : env.txOpResult i = some e) :
    (executeTransaction env dm poolName ops).1 = Except.error e ∧
    Event.txRollbackAttempt ∈ (executeTransaction env dm poolName ops).2.2 := by
  have hget := getPool_connected_entry env dm poolName none pool hfind hconn
  have hops : (runTxOps env ops 0).1 = some e := by
    refine runTxOps_first_fail env ops 0 i e hi ?_ ?_
    · intro j hj
      simpa using hprev j hj
    · simpa using hfail
  constructor
  · simp [executeTransaction, hget, hbegin, hops]
  · simp [executeTransaction, hget, hbegin, hops]

/-- Witness for Claim C1: the second of two operations fails with
`external 3`, the rollback itself rejects with `external 9`, and the caller
still receives `external 3` after a rollback attempt. -/
theorem executeTransaction_opFailure_witness :
    (executeTransaction envOpFail dmOne "p" [opQ, opQ]).1 =
      Except.error (DbError.external 3) ∧
    Event.txRollbackAttempt ∈ (executeTransaction envOpFail dmOne "p" [opQ, opQ]).2.2 :=
  executeTransaction_opFailure_original_error envOpFail dmOne "p" [opQ, opQ]
    poolC 1 (DbError.external 3) (by decide) (by decide) rfl (by decide)
    (by
      intro j hj
      have hj0 : j = 0 := by omega
      subst hj0
      rfl)
    (by decide)

/-! ### Claim C2 -/

/-- Claim C2 counterexample: with a single succeeding operation and a
commit that rejects with `external 7`, the commit error does propagate
as-is, but `executeTransaction` DOES attempt a rollback after the failed
commit (the commit is awaited inside the try block, whose catch always
awaits a rollback) — refuting the claim's assertion that no rollback is
attempted after a failed commit. -/
theorem executeTransaction_commitFail_cex :
    (executeTransaction envCommitFail dmOne "p" [opQ]).1 =
      Except.error (DbError.external 7) ∧
    Event.txRollbackAttempt ∈ (executeTransaction envCommitFail dmOne "p" [opQ]).2.2 := by
  decide

/-- Claim C2 (amended): if the pool resolves, the transaction begins, all
operations succeed and the commit fails with `e`, then the commit failure
propagates to the caller as-is (a rollback rejection — `env.rollbackResult`
is arbitrary — never masks it), but the coordinator DOES attempt a
rollback after the failed commit. -/
theorem executeTransaction_commitFail_propagates (env : Env) (dm : DM)
    (poolName : String) (ops : List TxOp) (pool : Pool) (e : DbError)
    (hfind : assocFind dm.pools poolName = some pool)
    (hconn : pool.connected = true)
    (hbegin : env.beginResult = none)
    (hops : ∀ j, j < ops.length → env.txOpResult j = none)
    (hcommit : env.commitResult = some e) :
    (executeTransaction env dm poolName ops).1 = Except.error e ∧
    Event.txCommitAttempt ∈ (executeTransaction env dm poolName ops).2.2 ∧
    Event.txRollbackAttempt ∈ (executeTransaction env dm poolName ops).2.2 := by
  have hget := getPool_connected_entry env dm poolName none pool hfind hconn
  have hall : (runTxOps env ops 0).1 = none := by
    refine runTxOps_all_ok env ops 0 ?_
    intro j hj
    simpa using hops j hj
  refine ⟨?_, ?_, ?_⟩ <;> simp [executeTransaction, hget, hbegin, hall, hcommit]

/-- Witness for the amended Claim C2 at a concrete commit-failing
environment. -/
theorem executeTransaction_commitFail_witness :
    (executeTransaction envCommitFail dmOne "p" [opQ]).1 =
      Except.error (DbError.external 7) ∧
    Event.txCommitAttempt ∈ (executeTransaction envCommitFail dmOne "p" [opQ]).2.2 ∧
    Event.txRollbackAttempt ∈ (executeTransaction envCommitFail dmOne "p" [opQ]).2.2 :=
  executeTransaction_commitFail_propagates envCommitFail dmOne "p" [opQ]
    poolC (DbError.external 7) (by decide) (by decide) rfl
    (fun j _ => rfl) rfl

/-! ### Claim C5 -/

/-- Claim C5 counterexample: the empty string is a name with no live pool
entry; a config IS supplied, yet `getPool` creates no pool and connects
nothing — it fails with the `'Missing configuration details'` ConfigError
(`setPool` rejects a falsy name), leaving the registry empty.  This
refutes the claim's "creates the pool and connects it" for every absent
name. -/
theorem getPool_emptyName_cex :
    getPool envOk ⟨[], 0⟩ "" (some cfg0) =
      (Except.error DbError.missingConfigDetails, ⟨[], 0⟩, []) := by
  decide

/-- Claim C5 (amended): for every registry state and name with no live pool
entry, `getPool` without a config fails with the ConfigError
`'Configuration for pool <name> not provided'` and creates no pool; when a
config is supplied for an absent NON-EMPTY name (and the driver connect
resolves), `getPool` creates a fresh pool and connects it before returning;
for the absent empty name it instead fails with the
`'Missing configuration details'` ConfigError. -/
theorem getPool_absent_name_spec (env : Env) (dm : DM) (name : String)
    (cfg : Config)
    (habs : assocFind dm.pools name = none) :
    (getPool env dm name none =
      (Except.error (DbError.configNotProvided name), dm, [])) ∧
    (name ≠ "" → env.connectResult dm.nextId = none →
      ∃ dm2 : DM,
        getPool env dm name (some cfg) =
          (Except.ok { id := dm.nextId, config := cfg, connected := true,
                       connecting := false },
           dm2, [Event.poolCreated dm.nextId, Event.connectCalled dm.nextId]) ∧
        assocFind dm2.pools name =
          some { id := dm.nextId, config := cfg, connected := true,
                 connecting := false }) ∧
    (name = "" →
      getPool env dm name (some cfg) =
        (Except.error DbError.missingConfigDetails, dm, [])) := by
  refine ⟨?_, ?_, ?_⟩
  · simp [getPool, habs]
  · intro hne hcr
    obtain ⟨dm2, hrun, hfound, -⟩ := getPool_absent_creates env dm name cfg habs hne hcr
    exact ⟨dm2, hrun, hfound⟩
  · intro hn
    subst hn
    simp [getPool, habs, setPool]

/-- Witness for the amended Claim C5: on an empty registry, `getPool "q"`
without a config fails with the ConfigError, and with a config it creates
and connects pool 0. -/
theorem getPool_absent_name_witness :
    (getPool envOk ⟨[], 0⟩ "q" none =
      (Except.error (DbError.configNotProvided "q"), ⟨[], 0⟩, [])) ∧
    (∃ dm2 : DM,
      getPool envOk ⟨[], 0⟩ "q" (some cfg0) =
        (Except.ok { id := 0, config := cfg0, connected := true,
                     connecting := false },
         dm2, [Event.poolCreated 0, Event.connectCalled 0]) ∧
      assocFind dm2.pools "q" =
        some { id := 0, config := cfg0, connected := true,
               connecting := false }) := by
  have h := getPool_absent_name_spec envOk ⟨[], 0⟩ "q" cfg0 (by decide)
  exact ⟨h.1, h.2.1 (by decide) rfl⟩

/-! ### Claim C6 -/

/-- Claim C6: for every name, `closePool` fails with the NotFoundError
`'Pool <name> does not exist'` when the registry has no entry; otherwise
(for every driver close outcome, even a rejecting one) the rebound close
hook removes the entry before the underlying close completes — afterwards
the registry has no entry under the name, and a subsequent `getPool` with a
fresh config creates a NEW pool (a different identity from the closed
pool's) rather than returning the closed one.  `WF` is the invariant of
all reachable registry states. -/
theorem closePool_spec (env : Env) (dm : DM) (name : String) (hWF : WF dm) :
    (assocFind dm.pools name = none →
      closePool env dm name = (Except.error (DbError.poolNotFound name), dm, [])) ∧
    (∀ pool, assocFind dm.pools name = some pool →
      assocFind (closePool env dm name).2.1.pools name = none ∧
      (closePool env dm name).2.1.nextId = dm.nextId ∧
      (closePool env dm name).2.2 =
        [Event.closeHookRun name pool.id, Event.underlyingCloseCalled pool.id] ∧
      (∀ cfg : Config, env.connectResult dm.nextId = none →
        ∃ p2 : Pool, ∃ dm2 : DM,
          getPool env (closePool env dm name).2.1 name (some cfg) =
            (Except.ok p2, dm2,
             [Event.poolCreated dm.nextId, Event.connectCalled dm.nextId]) ∧
          p2.id = dm.nextId ∧ p2.id ≠ pool.id)) := by
  constructor
  · intro habs
    simp [closePool, habs]
  · intro pool hfind
    have hmem := assocFind_mem hfind
    have hid : pool.id < dm.nextId := (hWF _ hmem).1
    have hne : name ≠ "" := (hWF _ hmem).2
    have hstate : (closePool env dm name).2.1 =
        ⟨assocRemove dm.pools name, dm.nextId⟩ := by
      cases hc : env.closeResult pool.id <;>
        simp [closePool, hfind, poolCloseHook, hc]
    have hevs : (closePool env dm name).2.2 =
        [Event.closeHookRun name pool.id, Event.underlyingCloseCalled pool.id] := by
      cases hc : env.closeResult pool.id <;>
        simp [closePool, hfind, poolCloseHook, hc]
    refine ⟨?_, ?_, hevs, ?_⟩
    · rw [hstate]
      exact assocFind_remove dm.pools name
    · rw [hstate]
    · intro cfg hcr
      rw [hstate]
      obtain ⟨dm2, hrun, -, -⟩ :=
        getPool_absent_creates env ⟨assocRemove dm.pools name, dm.nextId⟩ name cfg
          (assocFind_remove dm.pools name) hne hcr
      refine ⟨_, dm2, hrun, rfl, ?_⟩
      simp
      omega

/-- Witness for Claim C6: closing the tracked pool `"p"` (identity 0)
deregisters it, and `closePool` on an unknown name fails with the
NotFoundError. -/
theorem closePool_spec_witness :
    closePool envOk dmOne "nope" =
      (Except.error (DbError.poolNotFound "nope"), dmOne, []) ∧
    assocFind (closePool envOk dmOne "p").2.1.pools "p" = none ∧
    (closePool envOk dmOne "p").2.2 =
      [Event.closeHookRun "p" 0, Event.underlyingCloseCalled 0] := by
  have hwf : WF dmOne := by
    intro e he
    simp [dmOne] at he
    subst he
    exact ⟨Nat.zero_lt_one, by decide⟩
  have h1 := (closePool_spec envOk dmOne "nope" hwf).1 (by decide)
  have h2 := (closePool_spec envOk dmOne "p" hwf).2 poolC (by decide)
  exact ⟨h1, h2.1, h2.2.2.1⟩

/-! ### Claim C7 -/

/-- Claim C7 counterexample: both tracked pools' underlying closes reject
(with `external 1` and `external 2`); `closeAllPools` uses `Promise.all`,
so the single error `external 1` propagates and it carries nothing of the
second failure — the failures are NOT aggregated, refuting the claim. -/
theorem closeAllPools_no_aggregation_cex :
    (closeAllPools envCloseFails dmTwo).1 = Except.error (DbError.external 1) ∧
    errMentions (DbError.external 1) (DbError.external 2) = false := by
  decide

/-- Claim C7 (amended): `closeAllPools` starts the rebound close of every
tracked pool (each entry's close hook runs and the registry ends empty);
it succeeds exactly when every underlying close resolves, and when closes
fail it surfaces a single failing entry's error (the first rejection)
rather than an aggregate of all failures. -/
theorem closeAllPools_spec (env : Env) (dm : DM) :
    (closeAllPools env dm).2.1.pools = [] ∧
    (∀ e ∈ dm.pools, Event.closeHookRun e.1 e.2.id ∈ (closeAllPools env dm).2.2) ∧
    ((closeAllPools env dm).1 = Except.ok () ↔
      ∀ e ∈ dm.pools, env.closeResult e.2.id = none) ∧
    (∀ err, (closeAllPools env dm).1 = Except.error err →
      ∃ e ∈ dm.pools, env.closeResult e.2.id = some err) := by
  refine ⟨rfl, ?_, ?_, ?_⟩
  · intro e he
    simp only [closeAllPools, List.mem_flatten]
    exact ⟨_, List.mem_map_of_mem _ he, by simp⟩
  · rcases herrs : dm.pools.filterMap (fun e => env.closeResult e.2.id) with _ | ⟨err, rest⟩
    · simp only [closeAllPools, herrs]
      simpa using (List.filterMap_eq_nil_iff).1 herrs
    · simp only [closeAllPools, herrs]
      constructor
      · intro h
        cases h
      · intro hall
        have : dm.pools.filterMap (fun e => env.closeResult e.2.id) = [] :=
          (List.filterMap_eq_nil_iff).2 hall
        rw [herrs] at this
        cases this
  · intro err herr
    rcases herrs : dm.pools.filterMap (fun e => env.closeResult e.2.id) with _ | ⟨e0, rest⟩
    · simp only [closeAllPools, herrs] at herr
      cases herr
    · simp only [closeAllPools, herrs] at herr
      injection herr with heq
      rw [← heq]
      have hmem0 : e0 ∈ dm.pools.filterMap (fun e => env.closeResult e.2.id) := by
        rw [herrs]
        exact List.mem_cons_self _ _
      exact List.mem_filterMap.1 hmem0

/-- Witness for the amended Claim C7 on a registry of two pools whose
closes resolve: all hooks run, registry emptied, overall success. -/
theorem closeAllPools_spec_witness :
    (closeAllPools envOk dmTwo).2.1.pools = [] ∧
    Event.closeHookRun "a" 0 ∈ (closeAllPools envOk dmTwo).2.2 ∧
    Event.closeHookRun "b" 1 ∈ (closeAllPools envOk dmTwo).2.2 ∧
    (closeAllPools envOk dmTwo).1 = Except.ok () := by
  have h := closeAllPools_spec envOk dmTwo
  exact ⟨h.1, h.2.1 ("a", poolA) (by decide), h.2.1 ("b", poolB) (by decide),
    h.2.2.1.mpr (fun e _ => rfl)⟩

/-! ### Claim C8 -/

/-- The spec-side derived input-Param list (stated from the spec's words,
for the refinement comparison): one Param per entity field, value read off
that field, in field iteration order, with no type tag. -/
def derivedParams (entity : List (String × Value)) : List Param :=
  entity.map (fun kv => { name := kv.1, value := kv.2, typeTag := none })

/-- When the entity's keys are distinct (always true of a JS object), the
params `executeWithEntity` builds are exactly the spec-side derived
params. -/
theorem entityParams_eq_derived : ∀ entity : List (String × Value),
    (objectKeys entity).Nodup → entityParams entity = derivedParams entity
  | [], _ => rfl
  | (k, v) :: rest, hnd => by
    have hnd2 : (k :: objectKeys rest).Nodup := by
      simpa [objectKeys] using hnd
    have hk : k ∉ objectKeys rest := (List.nodup_cons.1 hnd2).1
    have hrest : (objectKeys rest).Nodup := (List.nodup_cons.1 hnd2).2
    have htail : (objectKeys rest).map (fun key =>
        ({ name := key, value := objectGet ((k, v) :: rest) key,
           typeTag := none } : Param)) = entityParams rest := by
      refine List.map_congr_left ?_
      intro key hkey
      have hne : ¬(k = key) := fun hEq => hk (by rw [hEq]; exact hkey)
      simp [objectGet, assocFind, hne]
    have hhead : objectGet ((k, v) :: rest) k = v := by
      simp [objectGet, assocFind]
    calc entityParams ((k, v) :: rest)
        = { name := k, value := objectGet ((k, v) :: rest) k, typeTag := none } ::
            (objectKeys rest).map (fun key =>
              ({ name := key, value := objectGet ((k, v) :: rest) key,
                 typeTag := none } : Param)) := by
          simp only [entityParams, objectKeys, List.map_cons]
      _ = { name := k, value := v, typeTag := none } :: entityParams rest := by
          rw [hhead, htail]
      _ = derivedParams ((k, v) :: rest) := by
          rw [entityParams_eq_derived rest hrest]
          rfl

/-- Claim C8: `executeWithEntity` produces the same result (return value,
registry state and actions) as `runCommand` called with the derived
input-Param list — one `{name, value}` Param per field, in the entity's
field iteration order, with no type tag added. -/
theorem executeWithEntity_refines_runCommand (env : Env) (dm : DM)
    (poolName : String) (kind : CmdKind) (command : String)
    (entity : List (String × Value)) (outputs : List Param)
    (hnd : (objectKeys entity).Nodup) :
    executeWithEntity env dm poolName kind command entity outputs =
      runCommand env dm poolName kind command (derivedParams entity) outputs ∧
    (derivedParams entity).map Param.name = objectKeys entity ∧
    (∀ p ∈ derivedParams entity, p.typeTag = none) := by
  refine ⟨?_, ?_, ?_⟩
  · unfold executeWithEntity
    rw [entityParams_eq_derived entity hnd]
  · simp [derivedParams, objectKeys]
  · intro p hp
    simp [derivedParams] at hp
    obtain ⟨a, b, _, rfl⟩ := hp
    rfl

/-- Witness for Claim C8 at a concrete two-field entity. -/
theorem executeWithEntity_refines_witness :
    executeWithEntity envOk dmOne "p" CmdKind.query "C"
        [("a", Value.vInt 1), ("b", Value.vStr "x")] [] =
      runCommand envOk dmOne "p" CmdKind.query "C"
        (derivedParams [("a", Value.vInt 1), ("b", Value.vStr "x")]) [] ∧
    (derivedParams [("a", Value.vInt 1), ("b", Value.vStr "x")]).map Param.name =
      objectKeys [("a", Value.vInt 1), ("b", Value.vStr "x")] := by
  have h := executeWithEntity_refines_runCommand envOk dmOne "p" CmdKind.query "C"
    [("a", Value.vInt 1), ("b", Value.vStr "x")] [] (by decide)
  exact ⟨h.1, h.2.1⟩

/-! ### Claim C9 -/

/-- Claim C9: `bulkInsert` builds the bulk table with exactly one row per
entity, each row projecting the declared columns' values out of the entity
in column-declaration order; with zero entities the table has zero rows and
the call succeeds, and with N entities the table carries exactly N rows
into the single bulk request. -/
theorem bulkInsert_rows_spec (env : Env) (dm : DM) (poolName tableName : String)
    (columns : List ColumnDef) (entities : List (List (String × Value)))
    (pool : Pool)
    (hfind : assocFind dm.pools poolName = some pool)
    (hconn : pool.connected = true)
    (hbulk : env.bulkResult pool.id (buildBulkTable tableName columns entities) = none) :
    bulkInsert env dm poolName tableName columns entities =
      (Except.ok (), dm, [Event.bulkRun pool.id]) ∧
    (buildBulkTable tableName columns entities).rows =
      entities.map (fun entity => columns.map (fun c => objectGet entity c.name)) ∧
    (buildBulkTable tableName columns entities).rows.length = entities.length ∧
    (entities = [] → (buildBulkTable tableName columns entities).rows = []) := by
  have hget := getPool_connected_entry env dm poolName none pool hfind hconn
  refine ⟨?_, rfl, ?_, ?_⟩
  · simp [bulkInsert, hget, hbulk]
  · simp [buildBulkTable]
  · intro he
    subst he
    rfl

/-- Witness for Claim C9: zero entities — zero rows and success — and two
entities — two rows, each projected in column order. -/
theorem bulkInsert_rows_witness :
    bulkInsert envOk dmOne "p" "T" [⟨"c1", SqlType.int, none⟩] [] =
      (Except.ok (), dmOne, [Event.bulkRun 0]) ∧
    (buildBulkTable "T" [⟨"c1", SqlType.int, none⟩] []).rows = [] ∧
    (buildBulkTable "T" [⟨"c1", SqlType.int, none⟩]
        [[("c1", Value.vInt 4)], [("c2", Value.vInt 9)]]).rows.length = 2 := by
  have h0 := bulkInsert_rows_spec envOk dmOne "p" "T" [⟨"c1", SqlType.int, none⟩]
    [] poolC (by decide) (by decide) rfl
  have h2 := bulkInsert_rows_spec envOk dmOne "p" "T" [⟨"c1", SqlType.int, none⟩]
    [[("c1", Value.vInt 4)], [("c2", Value.vInt 9)]] poolC (by decide) (by decide) rfl
  exact ⟨h0.1, h0.2.2.2 rfl, h2.2.2.1⟩

/-! ### Claim C10 -/

/-- Claim C10: when `setPool` is called with a name that already has a live
pool in the registry, it succeeds and the old entry is overwritten by a
freshly created pool (a distinct identity), while the replaced pool is
never closed by the registry: the event trace is the pool creation alone —
no close hook runs and no underlying close is called for any pool. -/
theorem setPool_overwrite_no_close (dm : DM) (name : String) (cfg : Config)
    (old : Pool) (hWF : WF dm)
    (hfind : assocFind dm.pools name = some old) :
    (setPool dm name (some cfg)).1 = Except.ok () ∧
    assocFind (setPool dm name (some cfg)).2.1.pools name =
      some { id := dm.nextId, config := cfg, connected := false,
             connecting := false } ∧
    dm.nextId ≠ old.id ∧
    (setPool dm name (some cfg)).2.2 = [Event.poolCreated dm.nextId] ∧
    (∀ n i, Event.closeHookRun n i ∉ (setPool dm name (some cfg)).2.2) ∧
    (∀ i, Event.underlyingCloseCalled i ∉ (setPool dm name (some cfg)).2.2) := by
  have hmem := assocFind_mem hfind
  have hid : old.id < dm.nextId := (hWF _ hmem).1
  have hne : name ≠ "" := (hWF _ hmem).2
  refine ⟨?_, ?_, ?_, ?_, ?_, ?_⟩
  · simp [setPool, hne]
  · simp only [setPool, if_neg hne]
    exact assocFind_put _ _ _
  · omega
  · simp [setPool, hne]
  · intro n i
    simp [setPool, hne]
  · intro i
    simp [setPool, hne]

/-- Witness for Claim C10: overwriting the tracked pool `"p"` (identity 0)
installs a fresh unconnected pool with identity 1 and performs no close. -/
theorem setPool_overwrite_witness :
    (setPool dmOne "p" (some cfg0)).1 = Except.ok () ∧
    assocFind (setPool dmOne "p" (some cfg0)).2.1.pools "p" =
      some { id := 1, config := cfg0, connected := false, connecting := false } ∧
    (setPool dmOne "p" (some cfg0)).2.2 = [Event.poolCreated 1] := by
  have hwf : WF dmOne := by
    intro e he
    simp [dmOne] at he
    subst he
    exact ⟨Nat.zero_lt_one, by decide⟩
  have h := setPool_overwrite_no_close dmOne "p" cfg0 poolC hwf (by decide)
  exact ⟨h.1, h.2.1, h.2.2.2.1⟩

end Db
